import Mathlib

/-!
Shallow embedding of the Unified Math MCP server (`src/main.py`).

Modelling conventions:
* Python floats are modelled as exact rationals `ℚ`; operations whose result
  involves a transcendental routine (`math.sqrt`, `math.log`) land in `ℝ`.
* A caller-supplied raw value is a `Value`: a number, a Python `bool`
  (which `isinstance(x, int)` accepts), a string, or anything else.
* A Python exception is an `MErr`.  The first eight constructors are the
  named error kinds of the spec taxonomy (deliberate `raise` statements in
  the source, distinguished by their messages); `runtimeZeroDivision` and
  `runtimeTypeError` stand for the runtime's own `ZeroDivisionError` /
  `TypeError`, escaping from an unguarded spot in the code.
* Fallible operations return `Except MErr _`.
-/

deriving instance DecidableEq for Except

namespace MathMCP

/-- Error kinds.  `invalidNumber` = `TypeError("Invalid number: ...")` or the
`ValueError` of an unparsable `float(...)`; `notAnInteger` =
`ValueError("Expected integer")`; `emptyInput` =
`ValueError("Input list cannot be empty")`; `divisionByZero` =
`ValueError("Division by zero")`; `insufficientData` = the two-data-points
`ValueError`s of `stdev`/`variance`; `dimensionMismatch` =
`ValueError("Points must have the same number of dimensions.")`.
`runtimeZeroDivision` and `runtimeTypeError` are the interpreter's own
unguarded exceptions, not part of the spec's named taxonomy. -/
inductive MErr where
  | invalidNumber
  | notAnInteger
  | emptyInput
  | divisionByZero
  | negativeInput
  | nonPositiveInput
  | insufficientData
  | dimensionMismatch
  | runtimeZeroDivision
  | runtimeTypeError
deriving DecidableEq, Repr

/-- Whether an error is one of the spec's distinct named kinds (a deliberate
`raise` of a descriptive exception), as opposed to a generic runtime
exception escaping uncaught. -/
def MErr.isNamed : MErr → Bool
  | .runtimeZeroDivision => false
  | .runtimeTypeError => false
  | _ => true

/-- A raw caller-supplied value: numeric literal, Python bool, string, or
any other object. -/
inductive Value where
  | num (q : ℚ)
  | bool (b : Bool)
  | str (s : String)
  | other
deriving DecidableEq, Repr

/-- Value of a decimal digit character. -/
def digitVal (c : Char) : ℕ := c.toNat - 48

/-- Python `s.strip()`: drop leading and trailing whitespace. -/
def pyStrip (s : String) : List Char :=
  ((s.toList.dropWhile Char.isWhitespace).reverse.dropWhile Char.isWhitespace).reverse

/-- Structural part of parsing `float(s.strip())`: optional sign, then
digits with an optional fractional part (`"1"`, `"-2.5"`, `".5"`, `"3."`).
Returns the sign and the integer/fraction digit runs, or `none` for a
malformed string. -/
def parseParts (s : String) : Option (Bool × List Char × List Char) :=
  let cs := pyStrip s
  let sign : Bool := match cs with
    | '-' :: _ => true
    | _ => false
  let cs' : List Char := match cs with
    | '-' :: rest => rest
    | '+' :: rest => rest
    | _ => cs
  let intPart := cs'.takeWhile (·.isDigit)
  let rest := cs'.dropWhile (·.isDigit)
  let fracPart : List Char := match rest with
    | '.' :: r => r.takeWhile (·.isDigit)
    | _ => []
  let rest2 : List Char := match rest with
    | '.' :: r => r.dropWhile (·.isDigit)
    | _ => rest
  if rest2 ≠ [] then none
  else if intPart = [] ∧ fracPart = [] then none
  else some (sign, intPart, fracPart)

/-- Numeric value of a digit run, most significant first. -/
def parsedDigits (l : List Char) : ℕ :=
  l.foldl (fun n c => n * 10 + digitVal c) 0

/-- Model of Python `float(s.strip())` as an exact rational.
Exponent/infinity/nan forms are not modelled; they return `none` here,
which only narrows the set of accepted strings and is irrelevant to the
claims. -/
def parseFloatStr (s : String) : Option ℚ :=
  (parseParts s).map fun p =>
    let v : ℚ := (parsedDigits p.2.1 : ℚ) +
      (parsedDigits p.2.2 : ℚ) / ((10 : ℚ) ^ p.2.2.length)
    if p.1 then -v else v

/-- `_as_number` (main.py:14-20): numbers and bools pass through
(`isinstance(x, (int, float))` is true for `bool`), strings are parsed after
stripping whitespace, anything else raises. -/
def as_number : Value → Except MErr ℚ
  | .num q => .ok q
  | .bool b => .ok (if b then 1 else 0)
  | .str s =>
    match parseFloatStr s with
    | some q => .ok q
    | none => .error .invalidNumber
  | .other => .error .invalidNumber

/-- `_as_int` (main.py:22-27): convert via `_as_number`, then require a zero
fractional part (`val.is_integer()`, i.e. denominator 1); never truncates. -/
def as_int (x : Value) : Except MErr ℤ :=
  match as_number x with
  | .error e => .error e
  | .ok q => if q.den = 1 then .ok q.num else .error .notAnInteger

/-- Elementwise `_as_number` over a list, stopping at the first failure
(the list comprehension `[_as_number(x) for x in data]`). -/
def mapNumbers : List Value → Except MErr (List ℚ)
  | [] => .ok []
  | x :: xs =>
    match as_number x, mapNumbers xs with
    | .error e, _ => .error e
    | .ok _, .error e => .error e
    | .ok q, .ok qs => .ok (q :: qs)

/-- `_as_list` (main.py:29-33): reject an empty list, then coerce
elementwise. -/
def as_list (data : List Value) : Except MErr (List ℚ) :=
  if data.isEmpty then .error .emptyInput
  else mapNumbers data

/-- `add` (main.py:37-39): `sum(_as_list(numbers))`, a left fold from 0. -/
def add (numbers : List Value) : Except MErr ℚ :=
  match as_list numbers with
  | .error e => .error e
  | .ok nums => .ok (nums.foldl (· + ·) 0)

/-- `multiply` (main.py:42-47): left fold of `*` from `1.0`. -/
def multiply (numbers : List Value) : Except MErr ℚ :=
  match as_list numbers with
  | .error e => .error e
  | .ok nums => .ok (nums.foldl (· * ·) 1)

/-- The `for n in nums[1:]` loop of `divide`: guard each divisor, then
divide into the accumulator. -/
def divideLoop : ℚ → List ℚ → Except MErr ℚ
  | acc, [] => .ok acc
  | acc, n :: rest =>
    if n = 0 then .error .divisionByZero else divideLoop (acc / n) rest

/-- `divide` (main.py:59-67): validate the list, seed with the first
element, then fold division left-to-right, raising on a zero divisor. -/
def divide (numbers : List Value) : Except MErr ℚ :=
  match as_list numbers with
  | .error e => .error e
  | .ok [] => .error .emptyInput
  | .ok (a :: rest) => divideLoop a rest

/-- The loop of `divide_multiple`, transcribed separately from its own
lines of source. -/
def divideMultipleLoop : ℚ → List ℚ → Except MErr ℚ
  | acc, [] => .ok acc
  | acc, n :: rest =>
    if n = 0 then .error .divisionByZero else divideMultipleLoop (acc / n) rest

/-- `divide_multiple` (main.py:71-79): textually identical to `divide`. -/
def divide_multiple (numbers : List Value) : Except MErr ℚ :=
  match as_list numbers with
  | .error e => .error e
  | .ok [] => .error .emptyInput
  | .ok (a :: rest) => divideMultipleLoop a rest

/-- `modulo` (main.py:82-84): `_as_number(a) % _as_number(b)` with NO guard
on the divisor; Python's `%` raises the runtime's `ZeroDivisionError` when
the divisor is zero, and otherwise yields `a - b*floor(a/b)` (remainder with
the divisor's sign), which on exact rationals is the formula below. -/
def modulo (a b : Value) : Except MErr ℚ :=
  match as_number a, as_number b with
  | .error e, _ => .error e
  | .ok _, .error e => .error e
  | .ok x, .ok y =>
    if y = 0 then .error .runtimeZeroDivision
    else .ok (x - y * ⌊x / y⌋)

/-- `abs_val` (main.py:220-222): absolute value after coercion. -/
def abs_val (x : Value) : Except MErr ℚ :=
  match as_number x with
  | .error e => .error e
  | .ok q => .ok |q|

/-- The literal default base `2.718281828` of `log` (main.py:102), a
rational approximation of (and distinct from) Euler's number `e`. -/
def LOG_DEFAULT_BASE : ℚ := 2.718281828

/-- `log` (main.py:102-111): coerce `x` and `base`, reject `x ≤ 0`, then
`math.log(val, base)`, i.e. `ln val / ln base` over the reals. -/
noncomputable def log (x base : Value) : Except MErr ℝ :=
  match as_number x, as_number base with
  | .error e, _ => .error e
  | .ok _, .error e => .error e
  | .ok val, .ok b =>
    if val ≤ 0 then .error .nonPositiveInput
    else .ok (Real.log (val : ℝ) / Real.log (b : ℝ))

/-- `log` called without an explicit `base` argument: Python fills in the
declared default `2.718281828`. -/
noncomputable def logDefault (x : Value) : Except MErr ℝ :=
  log x (.num LOG_DEFAULT_BASE)

/-- The values the `statistics` summation routines accept from our `Value`
universe: ints, floats and bools are usable as numbers; a string (or any
other object) makes `statistics.mean`/`stdev`/`variance` raise the
runtime's `TypeError` from `_exact_ratio` — these operations do NOT route
through `_as_number`. -/
def statNumbers : List Value → Except MErr (List ℚ)
  | [] => .ok []
  | .num q :: xs =>
    match statNumbers xs with
    | .error e => .error e
    | .ok qs => .ok (q :: qs)
  | .bool b :: xs =>
    match statNumbers xs with
    | .error e => .error e
    | .ok qs => .ok ((if b then (1 : ℚ) else 0) :: qs)
  | _ :: _ => .error .runtimeTypeError

/-- Arithmetic mean of a list of rationals. -/
def meanQ (nums : List ℚ) : ℚ := nums.sum / (nums.length : ℚ)

/-- `mean` (main.py:171-175): empty check, then `statistics.mean(data)` on
the RAW list — no `_as_list`, no coercion. -/
def mean (data : List Value) : Except MErr ℚ :=
  if data.isEmpty then .error .emptyInput
  else
    match statNumbers data with
    | .error e => .error e
    | .ok nums => .ok (meanQ nums)

/-- The numeric value Python arithmetic and comparisons see for ints,
floats and bools (junk 0 elsewhere; only used under an `isNumV` guard). -/
def numVal : Value → ℚ
  | .num q => q
  | .bool b => if b then 1 else 0
  | _ => 0

/-- Values Python orders and averages as numbers: ints, floats, bools. -/
def isNumV : Value → Bool
  | .num _ => true
  | .bool _ => true
  | _ => false

/-- String values. -/
def isStrV : Value → Bool
  | .str _ => true
  | _ => false

/-- Numeric comparison, as the Bool comparator Python's sort uses on an
all-numeric list. -/
def numLe (a b : Value) : Bool := numVal a ≤ numVal b

/-- Python string comparison (lexicographic in code points), as the Bool
comparator Python's sort uses on an all-string list (junk `true` off the
all-string guard). -/
def strLe (a b : Value) : Bool :=
  match a, b with
  | .str s₁, .str s₂ => s₁.toList ≤ s₂.toList
  | _, _ => true

/-- `median` (main.py:178-182): empty check, then `statistics.median(data)`
on the RAW list — `statistics.median` performs NO conversion: it sorts the
data and indexes it.  A singleton is returned as-is (sorting a singleton
compares nothing); an all-numeric list (ints, floats, bools) sorts
numerically, yielding the middle element itself for odd length or the
numeric average of the two middle elements for even length; an all-string
list sorts lexicographically and yields the middle STRING for odd length,
while for even length `(a + b) / 2` concatenates the two middle strings
and then fails with the runtime `TypeError` on the division; any other
combination of two or more elements (mixed numbers and strings, or
unorderable objects) fails with the runtime `TypeError` during sorting. -/
def median (data : List Value) : Except MErr Value :=
  if data.isEmpty then .error .emptyInput
  else if data.length = 1 then .ok (data.getD 0 .other)
  else if data.all isNumV then
    let sorted := data.mergeSort numLe
    let n := sorted.length
    if n % 2 = 1 then .ok (sorted.getD (n / 2) .other)
    else .ok (.num ((numVal (sorted.getD (n / 2 - 1) .other) +
      numVal (sorted.getD (n / 2) .other)) / 2))
  else if data.all isStrV then
    let sorted := data.mergeSort strLe
    let n := sorted.length
    if n % 2 = 1 then .ok (sorted.getD (n / 2) .other)
    else .error .runtimeTypeError
  else .error .runtimeTypeError

/-- Sample variance `Σ (x - mean)² / (n - 1)` computed by
`statistics.variance`. -/
def varianceQ (nums : List ℚ) : ℚ :=
  ((nums.map (fun x => (x - meanQ nums) ^ 2)).sum) / ((nums.length : ℚ) - 1)

/-- `variance` (main.py:192-196): `len(data) < 2` check first, then
`statistics.variance(data)` on the raw list. -/
def variance (data : List Value) : Except MErr ℚ :=
  if data.length < 2 then .error .insufficientData
  else
    match statNumbers data with
    | .error e => .error e
    | .ok nums => .ok (varianceQ nums)

/-- `stdev` (main.py:185-189): `len(data) < 2` check first, then
`statistics.stdev(data)` = square root of the sample variance, on the raw
list. -/
noncomputable def stdev (data : List Value) : Except MErr ℝ :=
  if data.length < 2 then .error .insufficientData
  else
    match statNumbers data with
    | .error e => .error e
    | .ok nums => .ok (Real.sqrt ((varianceQ nums : ℚ) : ℝ))

/-- `manhattan_distance` (main.py:264-270): coerce both point lists via
`_as_list` (so an empty list raises `EmptyInput` before anything else),
then compare lengths, then `sum(abs(a - b) for a, b in zip(p1, p2))`. -/
def manhattan_distance (point1 point2 : List Value) : Except MErr ℚ :=
  match as_list point1 with
  | .error e => .error e
  | .ok p1 =>
    match as_list point2 with
    | .error e => .error e
    | .ok p2 =>
      if p1.length ≠ p2.length then .error .dimensionMismatch
      else .ok (((p1.zip p2).map (fun ab => |ab.1 - ab.2|)).sum)

/-! ### Helper lemmas about the normalizer -/

/-- The only error `_as_number` can raise is `InvalidNumber`. -/
theorem as_number_error_eq (v : Value) (e : MErr) (h : as_number v = .error e) :
    e = .invalidNumber := by
  cases v with
  | num q => simp [as_number] at h
  | bool b => simp [as_number] at h
  | str s =>
    simp only [as_number] at h
    cases hp : parseFloatStr s with
    | some q => rw [hp] at h; cases h
    | none => rw [hp] at h; exact (Except.error.inj h).symm
  | other => exact (Except.error.inj h).symm

/-- Inversion for elementwise coercion of a cons cell. -/
theorem mapNumbers_cons_ok {x : Value} {xs : List Value} {qs : List ℚ}
    (h : mapNumbers (x :: xs) = .ok qs) :
    ∃ q qs0, as_number x = .ok q ∧ mapNumbers xs = .ok qs0 ∧ qs = q :: qs0 := by
  unfold mapNumbers at h
  cases hx : as_number x with
  | error e => rw [hx] at h; exact absurd h (by simp)
  | ok q =>
    rw [hx] at h
    cases hxs : mapNumbers xs with
    | error e => rw [hxs] at h; exact absurd h (by simp)
    | ok qs0 =>
      rw [hxs] at h
      exact ⟨q, qs0, rfl, rfl, (Except.ok.inj h).symm⟩

/-- The only error elementwise coercion can raise is `InvalidNumber`. -/
theorem mapNumbers_error_eq (L : List Value) (e : MErr)
    (h : mapNumbers L = .error e) : e = .invalidNumber := by
  induction L with
  | nil => exact absurd h (by simp [mapNumbers])
  | cons x xs ih =>
    unfold mapNumbers at h
    cases hx : as_number x with
    | error e' =>
      rw [hx] at h
      have he : e' = e := Except.error.inj h
      subst he
      exact as_number_error_eq x e' hx
    | ok q =>
      rw [hx] at h
      cases hxs : mapNumbers xs with
      | error e' =>
        rw [hxs] at h
        have he : e' = e := Except.error.inj h
        subst he
        exact ih hxs
      | ok qs0 => rw [hxs] at h; exact absurd h (by simp)

/-- Elementwise coercion preserves length. -/
theorem mapNumbers_length (L : List Value) (qs : List ℚ)
    (h : mapNumbers L = .ok qs) : qs.length = L.length := by
  induction L generalizing qs with
  | nil =>
    unfold mapNumbers at h
    rw [← Except.ok.inj h]
    rfl
  | cons x xs ih =>
    obtain ⟨q, qs0, _, hxs, rfl⟩ := mapNumbers_cons_ok h
    simp [ih qs0 hxs]

/-- Elementwise coercion of a permuted list succeeds with a permuted
result. -/
theorem mapNumbers_perm {L L' : List Value} (hp : L.Perm L') :
    ∀ qs, mapNumbers L = .ok qs →
      ∃ qs', mapNumbers L' = .ok qs' ∧ qs.Perm qs' := by
  induction hp with
  | nil => exact fun qs h => ⟨qs, h, List.Perm.refl qs⟩
  | cons x hp ih =>
    intro qs h
    obtain ⟨q, qs0, hx, hxs, rfl⟩ := mapNumbers_cons_ok h
    obtain ⟨qs0', h', hperm⟩ := ih qs0 hxs
    exact ⟨q :: qs0', by simp [mapNumbers, hx, h'], hperm.cons q⟩
  | swap x y l =>
    intro qs h
    obtain ⟨qy, qs1, hy, h1, rfl⟩ := mapNumbers_cons_ok h
    obtain ⟨qx, qs0, hx, h0, rfl⟩ := mapNumbers_cons_ok h1
    exact ⟨qx :: qy :: qs0, by simp [mapNumbers, hx, hy, h0],
      List.Perm.swap qx qy qs0⟩
  | trans hp1 hp2 ih1 ih2 =>
    intro qs h
    obtain ⟨qs1, h1, hperm1⟩ := ih1 qs h
    obtain ⟨qs2, h2, hperm2⟩ := ih2 qs1 h1
    exact ⟨qs2, h2, hperm1.trans hperm2⟩

/-! ### Helper lemmas about the division loop -/

/-- A zero divisor anywhere in the remaining list makes the loop raise
`DivisionByZero`. -/
theorem divideLoop_mem_zero (rest : List ℚ) (acc : ℚ) (h0 : 0 ∈ rest) :
    divideLoop acc rest = .error .divisionByZero := by
  induction rest generalizing acc with
  | nil => cases h0
  | cons n rest ih =>
    unfold divideLoop
    by_cases hn : n = 0
    · simp [hn]
    · have : 0 ∈ rest := by
        cases List.mem_cons.mp h0 with
        | inl h => exact absurd h.symm hn
        | inr h => exact h
      simp [hn, ih _ this]

/-- With no zero divisor the loop is the left fold of division. -/
theorem divideLoop_ok (rest : List ℚ) (acc : ℚ) (h0 : 0 ∉ rest) :
    divideLoop acc rest = .ok (rest.foldl (· / ·) acc) := by
  induction rest generalizing acc with
  | nil => rfl
  | cons n rest ih =>
    have hn : n ≠ 0 := fun h => h0 (by simp [h])
    have hr : 0 ∉ rest := fun h => h0 (List.mem_cons_of_mem _ h)
    simp [divideLoop, hn, ih _ hr, List.foldl_cons]

/-- The two transcriptions of the identical loops agree. -/
theorem divideLoop_eq_multiple (rest : List ℚ) (acc : ℚ) :
    divideLoop acc rest = divideMultipleLoop acc rest := by
  induction rest generalizing acc with
  | nil => rfl
  | cons n rest ih =>
    unfold divideLoop divideMultipleLoop
    by_cases hn : n = 0
    · simp [hn]
    · simp [hn, ih]

/-- Every error `divide` raises is one of the named kinds. -/
theorem divide_error_named (L : List Value) (e : MErr)
    (h : divide L = .error e) : e.isNamed = true := by
  unfold divide at h
  cases hl : as_list L with
  | error e' =>
    rw [hl] at h
    have h' : Except.error (α := ℚ) e' = Except.error e := h
    have he : e' = e := Except.error.inj h'
    subst he
    unfold as_list at hl
    by_cases hemp : L.isEmpty
    · rw [if_pos hemp] at hl
      rw [← Except.error.inj hl]
      rfl
    · rw [if_neg hemp] at hl
      rw [mapNumbers_error_eq L e' hl]
      rfl
  | ok nums =>
    rw [hl] at h
    cases nums with
    | nil =>
      have h' : Except.error (α := ℚ) MErr.emptyInput = Except.error e := h
      rw [← Except.error.inj h']
      rfl
    | cons a rest =>
      have h' : divideLoop a rest = .error e := h
      by_cases h0 : 0 ∈ rest
      · rw [divideLoop_mem_zero rest a h0] at h'
        rw [← Except.error.inj h']
        rfl
      · rw [divideLoop_ok rest a h0] at h'
        exact absurd h' (by simp)

/-! ### Left folds versus sum and product -/

/-- The left fold of addition is the seed plus the sum. -/
theorem foldl_add_eq (qs : List ℚ) (a : ℚ) : qs.foldl (· + ·) a = a + qs.sum := by
  induction qs generalizing a with
  | nil => simp
  | cons q qs ih => simp [List.foldl_cons, ih]; ring

/-- The left fold of multiplication is the seed times the product. -/
theorem foldl_mul_eq (qs : List ℚ) (a : ℚ) : qs.foldl (· * ·) a = a * qs.prod := by
  induction qs generalizing a with
  | nil => simp
  | cons q qs ih => simp [List.foldl_cons, ih]; ring

/-! ### Helper lemmas about the statistics path -/

/-- The only error the raw statistics coercion can raise is the runtime
`TypeError`. -/
theorem statNumbers_error_eq (L : List Value) (e : MErr)
    (h : statNumbers L = .error e) : e = .runtimeTypeError := by
  induction L with
  | nil => exact absurd h (by simp [statNumbers])
  | cons x xs ih =>
    cases x with
    | num q =>
      unfold statNumbers at h
      cases hxs : statNumbers xs with
      | error e' =>
        rw [hxs] at h
        have he : e' = e := Except.error.inj h
        subst he
        exact ih hxs
      | ok qs => rw [hxs] at h; exact absurd h (by simp)
    | bool b =>
      unfold statNumbers at h
      cases hxs : statNumbers xs with
      | error e' =>
        rw [hxs] at h
        have he : e' = e := Except.error.inj h
        subst he
        exact ih hxs
      | ok qs => rw [hxs] at h; exact absurd h (by simp)
    | str s =>
      have h' : Except.error (α := List ℚ) MErr.runtimeTypeError = .error e := h
      exact (Except.error.inj h').symm
    | other =>
      have h' : Except.error (α := List ℚ) MErr.runtimeTypeError = .error e := h
      exact (Except.error.inj h').symm

/-- The statistics coercion on a constant numeric list. -/
theorem statNumbers_replicate (n : ℕ) (c : ℚ) :
    statNumbers (List.replicate n (Value.num c)) = .ok (List.replicate n c) := by
  induction n with
  | zero => rfl
  | succ n ih => simp [List.replicate_succ, statNumbers, ih]

/-- The mean of a constant list is the constant. -/
theorem meanQ_replicate (n : ℕ) (c : ℚ) (hn : n ≠ 0) :
    meanQ (List.replicate n c) = c := by
  unfold meanQ
  rw [List.sum_replicate, List.length_replicate, nsmul_eq_mul]
  exact mul_div_cancel_left₀ c (Nat.cast_ne_zero.mpr hn)

/-- The sample variance of a constant list is zero. -/
theorem varianceQ_replicate (n : ℕ) (c : ℚ) (hn : n ≠ 0) :
    varianceQ (List.replicate n c) = 0 := by
  unfold varianceQ
  rw [meanQ_replicate n c hn, List.map_replicate]
  simp

/-! ### Unfolding lemmas for the wrapped operations -/

/-- `_as_list` on a non-empty list is the elementwise coercion. -/
theorem as_list_ok (L : List Value) (qs : List ℚ) (hne : L ≠ [])
    (h : mapNumbers L = .ok qs) : as_list L = .ok qs := by
  unfold as_list
  rw [if_neg (by simp [hne])]
  exact h

/-- `_as_int` after a successful `_as_number`. -/
theorem as_int_of_ok (v : Value) (q : ℚ) (hv : as_number v = .ok q) :
    as_int v = if q.den = 1 then .ok q.num else .error .notAnInteger := by
  unfold as_int
  rw [hv]

/-- `_as_int` propagates an `_as_number` failure unchanged. -/
theorem as_int_of_error (v : Value) (e : MErr) (hv : as_number v = .error e) :
    as_int v = .error e := by
  unfold as_int
  rw [hv]

/-- `add` on a validated list. -/
theorem add_ok (L : List Value) (qs : List ℚ) (h : as_list L = .ok qs) :
    add L = .ok (qs.foldl (· + ·) 0) := by
  unfold add
  rw [h]

/-- `multiply` on a validated list. -/
theorem multiply_ok (L : List Value) (qs : List ℚ) (h : as_list L = .ok qs) :
    multiply L = .ok (qs.foldl (· * ·) 1) := by
  unfold multiply
  rw [h]

/-- `divide` on a validated non-empty list runs the guarded loop. -/
theorem divide_run (L : List Value) (q : ℚ) (qs : List ℚ)
    (h : as_list L = .ok (q :: qs)) : divide L = divideLoop q qs := by
  unfold divide
  rw [h]

/-! ### Claim theorems -/

/-- C1: for every non-empty list of valid numbers, `divide` fails with
`DivisionByZero` iff some element after the first is zero (a zero first
element is allowed); when no non-first element is zero it returns the
left-to-right fold of division; and `divide([a]) == a` for every `a`. -/
theorem divide_spec (L : List Value) (q : ℚ) (qs : List ℚ)
    (h : mapNumbers L = .ok (q :: qs)) :
    (divide L = .error .divisionByZero ↔ 0 ∈ qs) ∧
    (0 ∉ qs → divide L = .ok (qs.foldl (· / ·) q)) ∧
    (∀ a : ℚ, divide [Value.num a] = .ok a) := by
  have hne : L ≠ [] := by
    intro h0
    subst h0
    exact absurd h (by simp [mapNumbers])
  have hd : divide L = divideLoop q qs := divide_run L q qs (as_list_ok L _ hne h)
  refine ⟨⟨?_, ?_⟩, ?_, ?_⟩
  · intro herr
    by_contra h0
    rw [hd, divideLoop_ok qs q h0] at herr
    exact absurd herr (by simp)
  · intro h0
    rw [hd, divideLoop_mem_zero qs q h0]
  · intro h0
    rw [hd, divideLoop_ok qs q h0]
  · intro a
    rfl

/-- Witness for `divide_spec`: `divide([6, 3]) == 2`. -/
theorem divide_spec_witness :
    mapNumbers [Value.num 6, Value.num 3] = .ok [6, 3] ∧
    divide [Value.num 6, Value.num 3] = .ok 2 := by
  have h : mapNumbers [Value.num 6, Value.num 3] = .ok [6, 3] := rfl
  refine ⟨h, ?_⟩
  have h2 := (divide_spec [Value.num 6, Value.num 3] 6 [3] h).2.1 (by norm_num)
  rw [h2]
  norm_num [List.foldl_cons, List.foldl_nil]

/-- C8: `divide` and `divide_multiple` are extensionally equal: on every
input list both succeed with the same value or fail with the same error. -/
theorem divide_eq_divide_multiple (numbers : List Value) :
    divide numbers = divide_multiple numbers := by
  unfold divide divide_multiple
  cases as_list numbers with
  | error e => rfl
  | ok nums =>
    cases nums with
    | nil => rfl
    | cons a rest => exact divideLoop_eq_multiple rest a

/-- C10: `_as_number` accepts Python booleans (they are instances of
`int`): `True ↦ 1.0`, `False ↦ 0.0`, never `InvalidNumber`; operations
taking a number therefore accept booleans as well. -/
theorem as_number_accepts_bool :
    as_number (Value.bool true) = .ok 1 ∧
    as_number (Value.bool false) = .ok 0 ∧
    (∀ b : Bool, as_number (Value.bool b) ≠ .error .invalidNumber) ∧
    abs_val (Value.bool true) = .ok 1 ∧
    as_int (Value.bool false) = .ok 0 := by
  refine ⟨rfl, rfl, ?_, ?_, ?_⟩
  · intro b
    cases b <;> simp [as_number]
  · unfold abs_val
    norm_num [as_number]
  · rw [as_int_of_ok (Value.bool false) 0 rfl]
    norm_num

/-- C4: on a non-empty list of valid numbers, `add` returns the sum and
`multiply` the product of the elements, and both results are unchanged
under any permutation of the list. -/
theorem add_multiply_perm (L L' : List Value) (qs : List ℚ)
    (hne : L ≠ []) (h : mapNumbers L = .ok qs) (hp : L.Perm L') :
    add L = .ok qs.sum ∧ multiply L = .ok qs.prod ∧
    add L' = add L ∧ multiply L' = multiply L := by
  have hal : as_list L = .ok qs := as_list_ok L qs hne h
  have hne' : L' ≠ [] := by
    intro h0
    subst h0
    exact hne hp.eq_nil
  obtain ⟨qs', h', hqperm⟩ := mapNumbers_perm hp qs h
  have hal' : as_list L' = .ok qs' := as_list_ok L' qs' hne' h'
  refine ⟨?_, ?_, ?_, ?_⟩
  · rw [add_ok L qs hal, foldl_add_eq, zero_add]
  · rw [multiply_ok L qs hal, foldl_mul_eq, one_mul]
  · rw [add_ok L qs hal, add_ok L' qs' hal', foldl_add_eq, foldl_add_eq,
      hqperm.sum_eq]
  · rw [multiply_ok L qs hal, multiply_ok L' qs' hal', foldl_mul_eq,
      foldl_mul_eq, hqperm.prod_eq]

/-- Witness for `add_multiply_perm`: `add([1,2]) == 3`,
`multiply([1,2]) == 2`, and swapping the two elements changes neither. -/
theorem add_multiply_perm_witness :
    add [Value.num 1, Value.num 2] = .ok 3 ∧
    multiply [Value.num 1, Value.num 2] = .ok 2 ∧
    add [Value.num 2, Value.num 1] = add [Value.num 1, Value.num 2] ∧
    multiply [Value.num 2, Value.num 1] = multiply [Value.num 1, Value.num 2] := by
  have h := add_multiply_perm [Value.num 1, Value.num 2] [Value.num 2, Value.num 1]
    [1, 2] (by simp) rfl (List.Perm.swap (Value.num 2) (Value.num 1) [])
  refine ⟨?_, ?_, h.2.2.1, h.2.2.2⟩
  · rw [h.1]
    norm_num
  · rw [h.2.1]
    norm_num

/-- C5: `_as_int` succeeds exactly when `_as_number` succeeds with a value
of zero fractional part, in which case it returns that value as an integer
(never truncating); a nonzero fractional part fails with `NotAnInteger`. -/
theorem as_int_spec (v : Value) :
    ((∃ n, as_int v = .ok n) ↔ ∃ q, as_number v = .ok q ∧ q.den = 1) ∧
    (∀ q, as_number v = .ok q → q.den = 1 → as_int v = .ok q.num) ∧
    (∀ q, as_number v = .ok q → q.den ≠ 1 → as_int v = .error .notAnInteger) ∧
    (∀ e, as_number v = .error e → as_int v = .error e) ∧
    (∀ n q, as_int v = .ok n → as_number v = .ok q → (n : ℚ) = q) := by
  cases hv : as_number v with
  | error e =>
    have hi := as_int_of_error v e hv
    refine ⟨⟨?_, ?_⟩, ?_, ?_, ?_, ?_⟩
    · rintro ⟨n, hn⟩
      rw [hi] at hn
      exact absurd hn (by simp)
    · rintro ⟨q, hq, -⟩
      exact absurd hq (by simp)
    · intro q hq
      exact absurd hq (by simp)
    · intro q hq
      exact absurd hq (by simp)
    · intro e' he'
      rw [hi, Except.error.inj he']
    · intro n q hn hq
      exact absurd hq (by simp)
  | ok q =>
    have hi := as_int_of_ok v q hv
    by_cases hden : q.den = 1
    · rw [if_pos hden] at hi
      refine ⟨⟨?_, ?_⟩, ?_, ?_, ?_, ?_⟩
      · intro _
        exact ⟨q, rfl, hden⟩
      · intro _
        exact ⟨q.num, hi⟩
      · intro q' hq' _
        rw [← Except.ok.inj hq']
        exact hi
      · intro q' hq' hd
        rw [← Except.ok.inj hq'] at hd
        exact absurd hden hd
      · intro e' he'
        exact absurd he' (by simp)
      · intro n q' hn hq'
        rw [hi] at hn
        rw [← Except.ok.inj hq', ← Except.ok.inj hn]
        exact (Rat.den_eq_one_iff q).mp hden
    · rw [if_neg hden] at hi
      refine ⟨⟨?_, ?_⟩, ?_, ?_, ?_, ?_⟩
      · rintro ⟨n, hn⟩
        rw [hi] at hn
        exact absurd hn (by simp)
      · rintro ⟨q', hq', hd⟩
        rw [← Except.ok.inj hq'] at hd
        exact absurd hd hden
      · intro q' hq' hd
        rw [← Except.ok.inj hq'] at hd
        exact absurd hd hden
      · intro q' hq' hd
        exact hi
      · intro e' he'
        exact absurd he' (by simp)
      · intro n q' hn hq'
        rw [hi] at hn
        exact absurd hn (by simp)

/-- Witness for `as_int_spec`: `toInteger(3.0) == 3` and `toInteger(3.5)`
fails with `NotAnInteger`. -/
theorem as_int_spec_witness :
    as_int (Value.num 3) = .ok 3 ∧
    as_int (Value.num (7 / 2)) = .error .notAnInteger := by
  constructor
  · have h := (as_int_spec (Value.num 3)).2.1 3 rfl (by norm_num)
    rw [h]
    norm_num
  · exact (as_int_spec (Value.num (7 / 2))).2.2.1 (7 / 2) rfl (by norm_num)

/-- `stdev` raises `InsufficientData` exactly on lists shorter than 2. -/
theorem stdev_error_iff (L : List Value) :
    stdev L = .error .insufficientData ↔ L.length < 2 := by
  unfold stdev
  by_cases hl : L.length < 2
  · simp [hl]
  · rw [if_neg hl]
    constructor
    · intro h
      cases hs : statNumbers L with
      | error e =>
        rw [hs] at h
        have h' : Except.error (α := ℝ) e = .error .insufficientData := h
        rw [statNumbers_error_eq L e hs] at h'
        exact absurd (Except.error.inj h') (by simp)
      | ok nums =>
        rw [hs] at h
        exact absurd h (by simp)
    · intro h
      exact absurd h hl

/-- `variance` raises `InsufficientData` exactly on lists shorter than 2. -/
theorem variance_error_iff (L : List Value) :
    variance L = .error .insufficientData ↔ L.length < 2 := by
  unfold variance
  by_cases hl : L.length < 2
  · simp [hl]
  · rw [if_neg hl]
    constructor
    · intro h
      cases hs : statNumbers L with
      | error e =>
        rw [hs] at h
        have h' : Except.error (α := ℚ) e = .error .insufficientData := h
        rw [statNumbers_error_eq L e hs] at h'
        exact absurd (Except.error.inj h') (by simp)
      | ok nums =>
        rw [hs] at h
        exact absurd h (by simp)
    · intro h
      exact absurd h hl

/-- `mean` raises `EmptyInput` exactly on the empty list. -/
theorem mean_error_iff (L : List Value) :
    mean L = .error .emptyInput ↔ L = [] := by
  by_cases hl : L = []
  · subst hl
    simp [mean]
  · unfold mean
    rw [if_neg (by simp [hl])]
    constructor
    · intro h
      cases hs : statNumbers L with
      | error e =>
        rw [hs] at h
        have h' : Except.error (α := ℚ) e = .error .emptyInput := h
        rw [statNumbers_error_eq L e hs] at h'
        exact absurd (Except.error.inj h') (by simp)
      | ok nums =>
        rw [hs] at h
        exact absurd h (by simp)
    · intro h
      exact absurd h hl

/-- `median` raises `EmptyInput` exactly on the empty list (every
non-empty list either succeeds or fails with the runtime `TypeError`). -/
theorem median_error_iff (L : List Value) :
    median L = .error .emptyInput ↔ L = [] := by
  by_cases hl : L = []
  · subst hl
    simp [median]
  · unfold median
    rw [if_neg (by simp [hl])]
    constructor
    · intro h
      by_cases h1 : L.length = 1
      · rw [if_pos h1] at h
        exact absurd h (by simp)
      · rw [if_neg h1] at h
        by_cases h2 : L.all isNumV
        · rw [if_pos h2] at h
          by_cases h3 : (L.mergeSort numLe).length % 2 = 1
          · rw [if_pos h3] at h
            exact absurd h (by simp)
          · rw [if_neg h3] at h
            exact absurd h (by simp)
        · rw [if_neg h2] at h
          by_cases h4 : L.all isStrV
          · rw [if_pos h4] at h
            by_cases h5 : (L.mergeSort strLe).length % 2 = 1
            · rw [if_pos h5] at h
              exact absurd h (by simp)
            · rw [if_neg h5] at h
              exact absurd h (by simp)
          · rw [if_neg h4] at h
            exact absurd h (by simp)
    · intro h
      exact absurd h hl

/-- `stdev` of a constant list of at least two equal values is zero. -/
theorem stdev_replicate (n : ℕ) (c : ℚ) (hn : 2 ≤ n) :
    stdev (List.replicate n (Value.num c)) = .ok 0 := by
  unfold stdev
  rw [if_neg (by simp; omega)]
  rw [statNumbers_replicate n c]
  show Except.ok (Real.sqrt ((varianceQ (List.replicate n c) : ℚ) : ℝ)) = .ok 0
  rw [varianceQ_replicate n c (by omega)]
  norm_num

/-- C6: `stdev`/`variance` fail with `InsufficientData` iff the list has
fewer than 2 elements, `mean`/`median` fail with `EmptyInput` iff the list
is empty, and `stdev` of a constant list of `n ≥ 2` equal elements is 0. -/
theorem stats_arity_spec (L : List Value) (n : ℕ) (c : ℚ) (hn : 2 ≤ n) :
    ((stdev L = .error .insufficientData) ↔ L.length < 2) ∧
    ((variance L = .error .insufficientData) ↔ L.length < 2) ∧
    ((mean L = .error .emptyInput) ↔ L = []) ∧
    ((median L = .error .emptyInput) ↔ L = []) ∧
    stdev (List.replicate n (Value.num c)) = .ok 0 :=
  ⟨stdev_error_iff L, variance_error_iff L, mean_error_iff L,
    median_error_iff L, stdev_replicate n c hn⟩

/-- Witness for `stats_arity_spec`: a single point fails, a constant pair
has standard deviation 0. -/
theorem stats_arity_spec_witness :
    2 ≤ 2 ∧
    stdev [Value.num 3] = .error .insufficientData ∧
    stdev (List.replicate 2 (Value.num 5)) = .ok 0 := by
  have h := stats_arity_spec [Value.num 3] 2 5 (le_refl 2)
  exact ⟨le_refl 2, h.1.mpr (by simp), h.2.2.2.2⟩

/-- C7 counterexample: with an empty first point list the two lengths
differ (0 ≠ 1), yet `manhattan_distance` fails with `EmptyInput` (raised
by `_as_list`), not with `DimensionMismatch` as the claim requires. -/
theorem manhattan_empty_counterexample :
    ([] : List Value).length ≠ [Value.num 1].length ∧
    manhattan_distance [] [Value.num 1] = .error .emptyInput ∧
    manhattan_distance [] [Value.num 1] ≠ .error .dimensionMismatch := by
  have h : manhattan_distance [] [Value.num 1] = .error .emptyInput := rfl
  rw [h]
  refine ⟨by simp, rfl, by simp⟩

/-- C7 amended: for NON-EMPTY lists of valid numbers, `manhattan_distance`
fails with `DimensionMismatch` when the lengths differ and otherwise
returns the sum of coordinatewise absolute differences. -/
theorem manhattan_spec (p1 p2 : List Value) (qs1 qs2 : List ℚ)
    (h1 : p1 ≠ []) (h2 : p2 ≠ [])
    (hm1 : mapNumbers p1 = .ok qs1) (hm2 : mapNumbers p2 = .ok qs2) :
    (p1.length ≠ p2.length →
      manhattan_distance p1 p2 = .error .dimensionMismatch) ∧
    (p1.length = p2.length →
      manhattan_distance p1 p2 =
        .ok (((qs1.zip qs2).map (fun ab => |ab.1 - ab.2|)).sum)) := by
  have ha1 := as_list_ok p1 qs1 h1 hm1
  have ha2 := as_list_ok p2 qs2 h2 hm2
  have hl1 := mapNumbers_length p1 qs1 hm1
  have hl2 := mapNumbers_length p2 qs2 hm2
  have hrun : manhattan_distance p1 p2 =
      if qs1.length ≠ qs2.length then .error .dimensionMismatch
      else .ok (((qs1.zip qs2).map (fun ab => |ab.1 - ab.2|)).sum) := by
    unfold manhattan_distance
    rw [ha1, ha2]
  constructor
  · intro hne
    rw [hrun, if_pos (by rw [hl1, hl2]; exact hne)]
  · intro heq
    rw [hrun, if_neg (by rw [hl1, hl2]; simpa using heq)]

/-- Witness for `manhattan_spec`: `manhattan_distance([1,5],[4,9]) == 7`
and a 1-point versus 2-point call fails with `DimensionMismatch`. -/
theorem manhattan_spec_witness :
    manhattan_distance [Value.num 1, Value.num 5] [Value.num 4, Value.num 9] = .ok 7 ∧
    manhattan_distance [Value.num 1] [Value.num 4, Value.num 9] =
      .error .dimensionMismatch := by
  constructor
  · have h := (manhattan_spec [Value.num 1, Value.num 5] [Value.num 4, Value.num 9]
      [1, 5] [4, 9] (by simp) (by simp) rfl rfl).2 (by simp)
    rw [h]
    norm_num [List.zip_cons_cons, abs_of_nonpos]
  · exact (manhattan_spec [Value.num 1] [Value.num 4, Value.num 9]
      [1] [4, 9] (by simp) (by simp) rfl rfl).1 (by simp)

/-- C2 counterexample: `modulo(1, 0)` escapes as the runtime's
`ZeroDivisionError` — not one of the named error kinds — because the `%`
in `modulo` has no zero-divisor guard. -/
theorem modulo_unguarded_counterexample :
    modulo (Value.num 1) (Value.num 0) = .error .runtimeZeroDivision ∧
    MErr.isNamed .runtimeZeroDivision = false := ⟨rfl, rfl⟩

/-- C2 amended: the deliberately raised errors are named kinds (every
failure of `divide` is named), but `modulo` with a zero second operand is
unguarded and fails with the runtime's generic `ZeroDivisionError`. -/
theorem modulo_zero_runtime_error (a : ℚ) (L : List Value) (e : MErr)
    (h : divide L = .error e) :
    modulo (Value.num a) (Value.num 0) = .error .runtimeZeroDivision ∧
    MErr.isNamed .runtimeZeroDivision = false ∧
    MErr.isNamed e = true := by
  refine ⟨?_, rfl, divide_error_named L e h⟩
  unfold modulo
  simp [as_number]

/-- Witness for `modulo_zero_runtime_error` at `a = 3` and
`L = [1, 0]`. -/
theorem modulo_zero_runtime_error_witness :
    divide [Value.num 1, Value.num 0] = .error .divisionByZero ∧
    modulo (Value.num 3) (Value.num 0) = .error .runtimeZeroDivision ∧
    MErr.isNamed .runtimeZeroDivision = false ∧
    MErr.isNamed .divisionByZero = true := by
  have hd : divide [Value.num 1, Value.num 0] = .error .divisionByZero := rfl
  have h := modulo_zero_runtime_error 3 [Value.num 1, Value.num 0] .divisionByZero hd
  exact ⟨hd, h.1, h.2.1, h.2.2⟩

/-- C3 counterexample: `mean(["1","2"])` fails with the runtime `TypeError`
instead of coercing the numeric strings and returning 1.5. -/
theorem mean_string_counterexample :
    mean [Value.str "1", Value.str "2"] = .error .runtimeTypeError ∧
    mean [Value.str "1", Value.str "2"] ≠ .ok (3 / 2) := by
  have h : mean [Value.str "1", Value.str "2"] = .error .runtimeTypeError := rfl
  rw [h]
  exact ⟨rfl, by simp⟩

unseal List.merge List.mergeSort in
/-- C3 amended: the arithmetic list operations do route elements through
`_as_number` (so `add(["1","2"]) == 3`), but the statistics operations
perform no coercion at all: `mean`, `stdev` and `variance` fail with the
runtime `TypeError` on string elements, and `median` sorts the raw values
without converting — for an odd-length string list it returns the middle
STRING uncoerced (`median(["1","2","3"]) == "2"`, not 2.0) and for an
even-length string list it fails with the runtime `TypeError` — while
`mean([1,2]) == 1.5` on already-numeric input. -/
theorem stats_no_coercion :
    (∀ s₁ s₂ : String,
      mean [Value.str s₁, Value.str s₂] = .error .runtimeTypeError) ∧
    (∀ s₁ s₂ : String,
      stdev [Value.str s₁, Value.str s₂] = .error .runtimeTypeError) ∧
    (∀ s₁ s₂ : String,
      variance [Value.str s₁, Value.str s₂] = .error .runtimeTypeError) ∧
    (∀ s₁ s₂ : String,
      median [Value.str s₁, Value.str s₂] = .error .runtimeTypeError) ∧
    median [Value.str "1", Value.str "2", Value.str "3"] = .ok (Value.str "2") ∧
    add [Value.str "1", Value.str "2"] = .ok 3 ∧
    mean [Value.num 1, Value.num 2] = .ok (3 / 2) := by
  refine ⟨fun s₁ s₂ => rfl, ?_, ?_, ?_, ?_, ?_, ?_⟩
  · intro s₁ s₂
    unfold stdev
    rw [if_neg (by simp)]
    rfl
  · intro s₁ s₂
    unfold variance
    rw [if_neg (by simp)]
    rfl
  · intro s₁ s₂
    unfold median
    rw [if_neg (by simp), if_neg (by simp), if_neg (by simp [isNumV]),
      if_pos (by simp [isStrV]), if_neg (by rw [List.length_mergeSort]; simp)]
  · decide
  · have h1 : as_number (Value.str "1") = .ok 1 := by
      have hp : parseParts "1" = some (false, ['1'], []) := rfl
      have hd1 : parsedDigits ['1'] = 1 := rfl
      have hd0 : parsedDigits [] = 0 := rfl
      simp [as_number, parseFloatStr, hp, hd1, hd0]
    have h2 : as_number (Value.str "2") = .ok 2 := by
      have hp : parseParts "2" = some (false, ['2'], []) := rfl
      have hd2 : parsedDigits ['2'] = 2 := rfl
      have hd0 : parsedDigits [] = 0 := rfl
      simp [as_number, parseFloatStr, hp, hd2, hd0]
    have hm : mapNumbers [Value.str "1", Value.str "2"] = .ok [1, 2] := by
      simp [mapNumbers, h1, h2]
    rw [add_ok _ [1, 2] (as_list_ok _ _ (by simp) hm)]
    norm_num
  · have hm : statNumbers [Value.num 1, Value.num 2] = .ok [1, 2] := rfl
    unfold mean
    rw [if_neg (by simp), hm]
    show Except.ok (meanQ [1, 2]) = .ok (3 / 2)
    norm_num [meanQ]

/-- C9 counterexample: at `x = 2.718281828` — the literal default base
itself — `log` without a base returns exactly 1, yet the natural logarithm
of that rational is not 1 (since e is irrational), so the result is not
`ln x`. -/
theorem log_default_counterexample :
    0 < LOG_DEFAULT_BASE ∧
    logDefault (Value.num LOG_DEFAULT_BASE) = .ok 1 ∧
    Real.log ((LOG_DEFAULT_BASE : ℚ) : ℝ) ≠ 1 := by
  have hpos : (0 : ℝ) < ((LOG_DEFAULT_BASE : ℚ) : ℝ) := by
    norm_num [LOG_DEFAULT_BASE]
  refine ⟨by norm_num [LOG_DEFAULT_BASE], ?_, ?_⟩
  · unfold logDefault log
    simp only [as_number]
    rw [if_neg (by norm_num [LOG_DEFAULT_BASE])]
    have hln : Real.log ((LOG_DEFAULT_BASE : ℚ) : ℝ) ≠ 0 :=
      Real.log_ne_zero_of_pos_of_ne_one hpos (by norm_num [LOG_DEFAULT_BASE])
    rw [div_self hln]
  · intro h
    have hx : ((LOG_DEFAULT_BASE : ℚ) : ℝ) = Real.exp 1 := by
      rw [← Real.exp_log hpos, h]
    have hgt : (2.7182818283 : ℝ) < Real.exp 1 := Real.exp_one_gt_d9
    rw [← hx] at hgt
    norm_num [LOG_DEFAULT_BASE] at hgt

/-- C9 amended: `log x` without an explicit base returns the logarithm of
x to the literal default base `2.718281828` (a rational approximation of
e), i.e. `ln x / ln 2.718281828`, not exactly the natural logarithm. -/
theorem log_default_spec (q : ℚ) (hq : 0 < q) :
    logDefault (Value.num q) =
      .ok (Real.log (q : ℝ) / Real.log ((LOG_DEFAULT_BASE : ℚ) : ℝ)) := by
  unfold logDefault log
  simp only [as_number]
  rw [if_neg (not_le.mpr hq)]

/-- Witness for `log_default_spec` at `x = 4`. -/
theorem log_default_spec_witness :
    (0 : ℚ) < 4 ∧
    logDefault (Value.num 4) =
      .ok (Real.log ((4 : ℚ) : ℝ) / Real.log ((LOG_DEFAULT_BASE : ℚ) : ℝ)) :=
  ⟨by norm_num, log_default_spec 4 (by norm_num)⟩

end MathMCP
